import Mathlib

/-!
Shallow embedding of the conversational RAG service in `app.py`
(class `OptimizedRAGSystem` plus the FastAPI route handlers), and
verification of the specification's claims about it.

Conventions of the embedding:
* Python dictionaries keyed by session id become association lists
  (`Histories`), with explicit lookup / set / erase operations.
* Wall-clock values (`datetime.now().isoformat()`, `time.time()` deltas)
  are opaque parameters threaded through an `Env` record.
* The external collaborators (Chroma retriever, OpenAI chat model) are
  modelled as functions in `Env` returning `Except`:
  an `Except.error` value models the underlying call raising.
* The async generator `stream_response` becomes a pure function returning
  the ordered trace of its observable actions (`Step`): each `yield`
  becomes a `Step.emit`, and the history mutation becomes
  `Step.updateHistory`, in source order.
-/

/-- One conversation exchange, as stored by
`update_conversation_history`: the dict
`{"user": ..., "assistant": ..., "timestamp": ...}`. -/
structure Exchange where
  user : String
  assistant : String
  timestamp : String
deriving DecidableEq, Repr

/-- The `conversation_histories` dict: an association list from
session id to that session's list of exchanges. -/
abbrev Histories := List (String × List Exchange)

/-- Dictionary lookup (`d.get(k)` / `k in d`). -/
def lookupH : Histories → String → Option (List Exchange)
  | [], _ => none
  | (k, v) :: t, s => if k = s then some v else lookupH t s

/-- Dictionary write (`d[k] = v`): replaces the binding when the key is
present, otherwise appends a fresh binding. -/
def setH : Histories → String → List Exchange → Histories
  | [], s, v => [(s, v)]
  | (k, w) :: t, s, v => if k = s then (s, v) :: t else (k, w) :: setH t s v

/-- Dictionary deletion (`del d[k]`). -/
def eraseH : Histories → String → Histories
  | [], _ => []
  | (k, v) :: t, s => if k = s then eraseH t s else (k, v) :: eraseH t s

/-- The exchange sequence currently recorded for a session: the stored
list when the key is present, `[]` otherwise. -/
def getHistVal (m : Histories) (s : String) : List Exchange :=
  (lookupH m s).getD []

/-- `OptimizedRAGSystem.get_conversation_history`: creates an empty
entry when the session id is absent (an observable side effect on the
dict), and returns the session's exchange list together with the
resulting dict. -/
def get_conversation_history (m : Histories) (sid : String) :
    List Exchange × Histories :=
  match lookupH m sid with
  | none => ([], setH m sid [])
  | some h => (h, m)

/-- Python's `l[-n:]` slice: the last `n` elements of a list. -/
def lastN (n : Nat) (l : List α) : List α :=
  l.drop (l.length - n)

/-- `OptimizedRAGSystem.update_conversation_history`: fetch (or create)
the session's list, append the new exchange in place, then, when the
length exceeds 10, keep only the last 10 entries (`history[-10:]`). -/
def update_conversation_history (m : Histories) (sid : String)
    (user_query ai_response now : String) : Histories :=
  let hm := get_conversation_history m sid
  let h2 := hm.1 ++ [⟨user_query, ai_response, now⟩]
  let m2 := setH hm.2 sid h2
  if h2.length > 10 then setH m2 sid (lastN 10 h2) else m2

/-- Folding a whole sequence of appends (query, response, timestamp)
into a session's history. -/
def appendAll (m : Histories) (sid : String)
    (es : List (String × String × String)) : Histories :=
  es.foldl (fun acc e => update_conversation_history acc sid e.1 e.2.1 e.2.2) m

/-- The exchange an append input turns into. -/
def mkExchange (e : String × String × String) : Exchange :=
  ⟨e.1, e.2.1, e.2.2⟩

-- ── Association-list lemmas ──────────────────────────────────────────

theorem lookupH_setH_same (m : Histories) (s : String) (v : List Exchange) :
    lookupH (setH m s v) s = some v := by
  induction m with
  | nil => simp [setH, lookupH]
  | cons p t ih =>
      obtain ⟨k, w⟩ := p
      by_cases hk : k = s
      · simp [setH, hk, lookupH]
      · simp [setH, hk, lookupH, ih]

theorem lookupH_setH_other (m : Histories) (s s' : String)
    (v : List Exchange) (hne : s ≠ s') :
    lookupH (setH m s v) s' = lookupH m s' := by
  induction m with
  | nil => simp [setH, lookupH, hne]
  | cons p t ih =>
      obtain ⟨k, w⟩ := p
      by_cases hk : k = s
      · subst hk
        simp [setH, lookupH, hne]
      · simp [setH, hk, lookupH, ih]

theorem lookupH_eraseH_same (m : Histories) (s : String) :
    lookupH (eraseH m s) s = none := by
  induction m with
  | nil => simp [eraseH, lookupH]
  | cons p t ih =>
      obtain ⟨k, w⟩ := p
      by_cases hk : k = s
      · simp [eraseH, hk, ih]
      · simp [eraseH, hk, lookupH, ih]

theorem eraseH_idem (m : Histories) (s : String) :
    eraseH (eraseH m s) s = eraseH m s := by
  induction m with
  | nil => simp [eraseH]
  | cons p t ih =>
      obtain ⟨k, w⟩ := p
      by_cases hk : k = s
      · simp [eraseH, hk, ih]
      · simp [eraseH, hk, ih]

theorem getHistVal_get_fst (m : Histories) (sid : String) :
    (get_conversation_history m sid).1 = getHistVal m sid := by
  unfold get_conversation_history getHistVal
  cases lookupH m sid <;> simp

theorem getHistVal_get_snd (m : Histories) (sid s : String) :
    getHistVal (get_conversation_history m sid).2 s = getHistVal m s := by
  unfold get_conversation_history getHistVal
  cases hm : lookupH m sid with
  | none =>
      by_cases hs : sid = s
      · subst hs
        simp [lookupH_setH_same, hm]
      · simp [lookupH_setH_other m sid s [] hs]
  | some h => simp

-- ── `lastN` lemmas ───────────────────────────────────────────────────

theorem lastN_eq_reverse_take (n : Nat) (l : List α) :
    lastN n l = (l.reverse.take n).reverse :=
  List.rtake_eq_reverse_take_reverse l n

theorem lastN_length (n : Nat) (l : List α) :
    (lastN n l).length = min n l.length := by
  rw [lastN_eq_reverse_take]
  simp

theorem lastN_length_le (n : Nat) (l : List α) :
    (lastN n l).length ≤ n := by
  rw [lastN_length]
  exact Nat.min_le_left _ _

theorem lastN_of_length_le (n : Nat) (l : List α) (h : l.length ≤ n) :
    lastN n l = l := by
  simp [lastN, Nat.sub_eq_zero_of_le h]

theorem lastN_suffix (n : Nat) (l : List α) :
    List.IsSuffix (lastN n l) l := by
  rw [lastN]
  exact List.drop_suffix _ _

theorem lastN_append_lastN (n : Nat) (a b : List α) :
    lastN n (lastN n a ++ b) = lastN n (a ++ b) := by
  rw [lastN_eq_reverse_take, lastN_eq_reverse_take, lastN_eq_reverse_take]
  congr 1
  rw [List.reverse_append, List.reverse_append, List.reverse_reverse]
  rw [List.take_append_eq_append_take, List.take_append_eq_append_take]
  congr 1
  rw [List.take_take]
  congr 1
  omega

theorem lastN_getLast?_concat (n : Nat) (hn : 0 < n) (l : List α) (a : α) :
    (lastN n (l ++ [a])).getLast? = some a := by
  rw [lastN_eq_reverse_take]
  rw [List.reverse_append]
  obtain ⟨k, rfl⟩ := Nat.exists_eq_succ_of_ne_zero (Nat.pos_iff_ne_zero.mp hn)
  simp only [List.reverse_cons, List.reverse_nil, List.nil_append,
    List.cons_append, List.take_succ_cons, List.reverse_cons]
  exact List.getLast?_concat _

-- ── Session-store behaviour of a single append ───────────────────────

theorem update_getHistVal_same (m : Histories) (sid q r t : String) :
    getHistVal (update_conversation_history m sid q r t) sid =
      (if (getHistVal m sid ++ [(⟨q, r, t⟩ : Exchange)]).length > 10
        then lastN 10 (getHistVal m sid ++ [(⟨q, r, t⟩ : Exchange)])
        else getHistVal m sid ++ [(⟨q, r, t⟩ : Exchange)]) := by
  simp only [update_conversation_history, getHistVal_get_fst]
  by_cases hlen : (getHistVal m sid ++ [(⟨q, r, t⟩ : Exchange)]).length > 10
  · simp only [hlen, if_true]
    simp [getHistVal, lookupH_setH_same]
  · simp only [hlen, if_false]
    simp [getHistVal, lookupH_setH_same]

theorem update_getHistVal_lastN (m : Histories) (sid q r t : String)
    (hcap : (getHistVal m sid).length ≤ 10) :
    getHistVal (update_conversation_history m sid q r t) sid =
      lastN 10 (getHistVal m sid ++ [(⟨q, r, t⟩ : Exchange)]) := by
  rw [update_getHistVal_same]
  by_cases hlen : (getHistVal m sid ++ [(⟨q, r, t⟩ : Exchange)]).length > 10
  · rw [if_pos hlen]
  · rw [if_neg hlen, lastN_of_length_le]
    simp only [List.length_append, List.length_cons, List.length_nil] at hlen ⊢
    omega

theorem update_length_le (m : Histories) (sid q r t : String) :
    (getHistVal (update_conversation_history m sid q r t) sid).length ≤ 10 := by
  rw [update_getHistVal_same]
  by_cases hlen : (getHistVal m sid ++ [(⟨q, r, t⟩ : Exchange)]).length > 10
  · rw [if_pos hlen]
    exact lastN_length_le _ _
  · rw [if_neg hlen]
    omega

theorem appendAll_getHistVal (sid : String) (es : List (String × String × String)) :
    ∀ m : Histories, (getHistVal m sid).length ≤ 10 →
      getHistVal (appendAll m sid es) sid =
        lastN 10 (getHistVal m sid ++ es.map mkExchange) := by
  induction es with
  | nil =>
      intro m hcap
      simp only [appendAll, List.foldl_nil, List.map_nil, List.append_nil]
      exact (lastN_of_length_le 10 _ hcap).symm
  | cons e tl ih =>
      intro m hcap
      have step : appendAll m sid (e :: tl) =
          appendAll (update_conversation_history m sid e.1 e.2.1 e.2.2) sid tl := by
        simp [appendAll]
      rw [step, ih _ (update_length_le m sid e.1 e.2.1 e.2.2)]
      rw [update_getHistVal_lastN m sid e.1 e.2.1 e.2.2 hcap]
      rw [lastN_append_lastN]
      simp [mkExchange]

-- ── Stream events, documents, and the environment ────────────────────

/-- The tagged JSON events yielded by `stream_response`
(`"type"` is `"partial"`, `"complete"` or `"error"`). -/
inductive StreamEvent where
  | Partial (content : String) (full_response : String)
      (sources : List String) (session_id : String)
  | Complete (content : String) (sources : List String)
      (session_id : String) (response_time : Nat) (timestamp : String)
  | Error (content : String) (sources : List String)
      (session_id : String) (timestamp : String)
deriving DecidableEq, Repr

/-- The `"type"` tag of an event as it appears in the JSON payload. -/
def kindOf : StreamEvent → String
  | StreamEvent.Partial _ _ _ _ => "partial"
  | StreamEvent.Complete _ _ _ _ _ => "complete"
  | StreamEvent.Error _ _ _ _ => "error"

def isErrorEv : StreamEvent → Bool
  | StreamEvent.Error _ _ _ _ => true
  | _ => false

def isCompleteEv : StreamEvent → Bool
  | StreamEvent.Complete _ _ _ _ _ => true
  | _ => false

def isPartialEv : StreamEvent → Bool
  | StreamEvent.Partial _ _ _ _ => true
  | _ => false

/-- One observable action of the async generator `stream_response`:
a `yield` of an event, or the in-place conversation-history update. -/
inductive Step where
  | emit (e : StreamEvent)
  | updateHistory (session_id : String) (user_query : String) (ai_response : String)
deriving DecidableEq, Repr

/-- The events yielded along a trace, in order. -/
def emittedEvents (tr : List Step) : List StreamEvent :=
  tr.filterMap (fun s => match s with
    | Step.emit e => some e
    | Step.updateHistory _ _ _ => none)

/-- A document returned by the retriever: its text plus the `page` and
`source` metadata fields (absent metadata modelled as `none`). -/
structure Doc where
  page_content : String
  page : Option String
  source : Option String
deriving DecidableEq, Repr

/-- The source label built in `get_context_documents`:
`f"Page {metadata.get('page', 'N/A')} - {metadata.get('source', 'Unknown')}"`. -/
def sourceInfo (d : Doc) : String :=
  "Page " ++ d.page.getD "N/A" ++ " - " ++ d.source.getD "Unknown"

/-- The per-call environment: whether the vectorstore was initialized,
the outcomes of the external retriever and LLM calls (`Except.error`
models the call raising), and the opaque wall-clock values. -/
structure Env where
  vectorstoreInit : Bool
  retrieval : String → Except String (List Doc)
  generation : String → Except String String
  now : String
  elapsed : Nat

/-- `OptimizedRAGSystem.get_context_documents`: returns `([], [])` when
the vectorstore is uninitialized or the retriever call raises, and the
texts plus formatted source labels otherwise. Never raises. -/
def get_context_documents (env : Env) (query : String) :
    List String × List String :=
  if env.vectorstoreInit = false then ([], [])
  else
    match env.retrieval query with
    | Except.error _ => ([], [])
    | Except.ok docs =>
        (docs.map (fun d => d.page_content), docs.map sourceInfo)

-- ── Prompt assembly ──────────────────────────────────────────────────

/-- `context = "\n\n".join(context_texts) if context_texts else
"No relevant context found."` -/
def contextOf (texts : List String) : String :=
  if texts.isEmpty then "No relevant context found."
  else String.intercalate "\n\n" texts

/-- One history item rendered into the prompt:
`f"User: {item['user']}\nAssistant: {item['assistant']}\n\n"`. -/
def renderExchange (e : Exchange) : String :=
  "User: " ++ e.user ++ "\nAssistant: " ++ e.assistant ++ "\n\n"

/-- The `conversation_context` accumulator: empty when the history is
empty, otherwise the renderings of the last 3 exchanges concatenated
in order (`history[-3:]`, oldest first). -/
def convCtx (history : List Exchange) : String :=
  if history.isEmpty then ""
  else ((lastN 3 history).map renderExchange).foldl (fun a b => a ++ b) ""

/-- Head of the system prompt template used by `stream_response`
(everything before `{conversation_context}`). -/
def streamPromptHead : String :=
  "You are Budger, an advanced AI customer service agent for Cogent Infotech Corporation. You are helpful, professional, and knowledgeable about the company\x27s services and policies.\n\nKey Guidelines:\n- Provide accurate, helpful responses based on the context provided\n- Be conversational and friendly while maintaining professionalism\n- If you don\x27t know something, admit it rather than guessing\n- Keep responses concise but comprehensive\n- Use the conversation history to maintain context\n\nPrevious Conversation:\n"

/-- Head of the system prompt template used by `get_response`. -/
def blockingPromptHead : String :=
  "You are Budger, an advanced AI customer service agent for Cogent Infotech Corporation. You are helpful, professional, and knowledgeable about the company\x27s services and policies.\n\nPrevious Conversation:\n"

def promptMidA : String := "\n\nRelevant Context:\n"

def promptMidB : String := "\n\nCurrent User Query: "

def promptTail : String := "\n\nPlease provide a helpful and accurate response:"

/-- `system_prompt.format(conversation_context=..., context=..., query=...)`:
the template with the three interpolation slots filled in. -/
def assemblePrompt (head conv ctx q : String) : String :=
  head ++ conv ++ promptMidA ++ ctx ++ promptMidB ++ q ++ promptTail

def assembleStream (conv ctx q : String) : String :=
  assemblePrompt streamPromptHead conv ctx q

def assembleBlocking (conv ctx q : String) : String :=
  assemblePrompt blockingPromptHead conv ctx q

/-- The fixed user-safe apology text used by both error paths. -/
def apologyMsg : String :=
  "I apologize, but I\x27m experiencing technical difficulties. Please try again in a moment."

-- ── Word-level streaming ─────────────────────────────────────────────

/-- Character-level worker for Python's `str.split()`: `cur` is the
current word being accumulated, in reverse. -/
def pySplitChars : List Char → List Char → List String
  | [], cur => if cur.isEmpty then [] else [String.mk cur.reverse]
  | c :: rest, cur =>
      if c.isWhitespace then
        if cur.isEmpty then pySplitChars rest []
        else String.mk cur.reverse :: pySplitChars rest []
      else pySplitChars rest (c :: cur)

/-- Python's `str.split()` with no argument: split on whitespace runs,
discarding empty pieces. -/
def pySplit (s : String) : List String :=
  pySplitChars s.data []

/-- Python's `str.strip()` with no argument: remove leading and
trailing whitespace. -/
def pyStrip (s : String) : String :=
  String.mk
    (((s.data.dropWhile (fun c => c.isWhitespace)).reverse.dropWhile
      (fun c => c.isWhitespace)).reverse)

/-- The partial-event loop of `stream_response`: for each word,
`streamed_response += word + " "` and one `partial` event is yielded
whose `content` is `word + " "` and whose `full_response` field is
`streamed_response.strip()`. -/
def buildPartials (sources : List String) (sid : String) :
    List String → String → List StreamEvent
  | [], _ => []
  | w :: ws, acc =>
      let acc2 := acc ++ w ++ " "
      StreamEvent.Partial (w ++ " ") (pyStrip acc2) sources sid ::
        buildPartials sources sid ws acc2

-- ── The two orchestrator operations ──────────────────────────────────

/-- `OptimizedRAGSystem.stream_response` as the ordered trace of its
observable actions plus the resulting history dict. The whole body runs
under one `try`; the generation call raising is modelled by
`env.generation` returning `Except.error`, in which case the handler
yields the single `error` event. -/
def stream_response (env : Env) (m : Histories) (query : String)
    (sid : String) : List Step × Histories :=
  let hm := get_conversation_history m sid
  let cs := get_context_documents env query
  let context := contextOf cs.1
  let conversation_context := convCtx hm.1
  let prompt := assembleStream conversation_context context query
  match env.generation prompt with
  | Except.error _ =>
      ([Step.emit (StreamEvent.Error apologyMsg [] sid env.now)], hm.2)
  | Except.ok full_response =>
      let tr := (buildPartials cs.2 sid (pySplit full_response) "").map Step.emit
      let m2 := update_conversation_history hm.2 sid query full_response env.now
      (tr ++ [Step.updateHistory sid query full_response,
              Step.emit (StreamEvent.Complete full_response cs.2 sid
                env.elapsed env.now)], m2)

/-- The payload returned by `get_response` (and the `/chat` endpoint). -/
structure BlockingResult where
  response : String
  sources : List String
  session_id : String
  timestamp : String
  response_time : Nat
deriving DecidableEq, Repr

/-- `OptimizedRAGSystem.get_response`: the non-streaming turn. On any
failure the fixed apology payload with empty sources is returned and
the history is left as it was after the initial read. -/
def get_response (env : Env) (m : Histories) (query : String)
    (sid : String) : BlockingResult × Histories :=
  let hm := get_conversation_history m sid
  let cs := get_context_documents env query
  let context := contextOf cs.1
  let conversation_context := convCtx hm.1
  let prompt := assembleBlocking conversation_context context query
  match env.generation prompt with
  | Except.error _ =>
      (⟨apologyMsg, [], sid, env.now, env.elapsed⟩, hm.2)
  | Except.ok full_response =>
      let m2 := update_conversation_history hm.2 sid query full_response env.now
      (⟨full_response, cs.2, sid, env.now, env.elapsed⟩, m2)

-- ── Substring containment ────────────────────────────────────────────

/-- `pat` occurs verbatim inside `s`. -/
def containsStr (s pat : String) : Prop :=
  ∃ a b : String, s = a ++ pat ++ b

theorem strAppend_assoc (a b c : String) : a ++ b ++ c = a ++ (b ++ c) :=
  congrArg String.mk (List.append_assoc a.data b.data c.data)

theorem assemblePrompt_contains_ctx (head conv ctx q : String) :
    containsStr (assemblePrompt head conv ctx q) ctx := by
  refine ⟨head ++ conv ++ promptMidA, promptMidB ++ q ++ promptTail, ?_⟩
  simp only [assemblePrompt, strAppend_assoc]

theorem assemblePrompt_contains_conv (head conv ctx q : String) :
    containsStr (assemblePrompt head conv ctx q) conv := by
  refine ⟨head, promptMidA ++ ctx ++ promptMidB ++ q ++ promptTail, ?_⟩
  simp only [assemblePrompt, strAppend_assoc]

-- ── Trace-shape lemmas ───────────────────────────────────────────────

theorem buildPartials_all_partial (sources : List String) (sid : String)
    (ws : List String) : ∀ acc : String,
    ∀ e ∈ buildPartials sources sid ws acc, isPartialEv e = true := by
  induction ws with
  | nil => intro acc e he; simp [buildPartials] at he
  | cons w tl ih =>
      intro acc e he
      simp only [buildPartials, List.mem_cons] at he
      rcases he with h | h
      · subst h; rfl
      · exact ih _ e h

theorem buildPartials_filter_error (sources : List String) (sid : String)
    (ws : List String) : ∀ acc : String,
    (buildPartials sources sid ws acc).filter isErrorEv = [] := by
  induction ws with
  | nil => intro acc; rfl
  | cons w tl ih =>
      intro acc
      simp [buildPartials, List.filter_cons, isErrorEv, ih]

theorem buildPartials_filter_complete (sources : List String) (sid : String)
    (ws : List String) : ∀ acc : String,
    (buildPartials sources sid ws acc).filter isCompleteEv = [] := by
  induction ws with
  | nil => intro acc; rfl
  | cons w tl ih =>
      intro acc
      simp [buildPartials, List.filter_cons, isCompleteEv, ih]

theorem emittedEvents_shape (x : List StreamEvent) (a b c : String)
    (ev : StreamEvent) :
    emittedEvents (x.map Step.emit ++
      [Step.updateHistory a b c, Step.emit ev]) = x ++ [ev] := by
  induction x with
  | nil => rfl
  | cons e tl ih =>
      simp only [List.map_cons, List.cons_append]
      simpa [emittedEvents, List.filterMap_cons] using ih

/-- Shape of a successful streaming run: the trace is the partial
emissions, then the history update, then the complete emission. -/
theorem stream_ok_fst (vi : Bool) (r : String → Except String (List Doc))
    (m : Histories) (q sid resp ts : String) (el : Nat) :
    (stream_response ⟨vi, r, fun _ => Except.ok resp, ts, el⟩ m q sid).1 =
      (buildPartials (get_context_documents
          ⟨vi, r, fun _ => Except.ok resp, ts, el⟩ q).2 sid
          (pySplit resp) "").map Step.emit ++
      [Step.updateHistory sid q resp,
       Step.emit (StreamEvent.Complete resp
         (get_context_documents ⟨vi, r, fun _ => Except.ok resp, ts, el⟩ q).2
         sid el ts)] := rfl

theorem stream_ok_snd (vi : Bool) (r : String → Except String (List Doc))
    (m : Histories) (q sid resp ts : String) (el : Nat) :
    (stream_response ⟨vi, r, fun _ => Except.ok resp, ts, el⟩ m q sid).2 =
      update_conversation_history (get_conversation_history m sid).2
        sid q resp ts := rfl

theorem update_getLast (m : Histories) (sid q r t : String) :
    (getHistVal (update_conversation_history m sid q r t) sid).getLast? =
      some ⟨q, r, t⟩ := by
  rw [update_getHistVal_same]
  by_cases hlen : (getHistVal m sid ++ [(⟨q, r, t⟩ : Exchange)]).length > 10
  · rw [if_pos hlen]
    exact lastN_getLast?_concat 10 (by omega) _ _
  · rw [if_neg hlen]
    exact List.getLast?_concat _

-- ── Claims ───────────────────────────────────────────────────────────

/-- Claim C1: for every session id and every sequence of N > 10 appended
exchanges, reading the session's history afterwards returns exactly the
most recent 10 exchanges in chronological order (appends beyond the cap
evict the oldest entries FIFO), and every single append leaves the
session's history at length at most 10. -/
theorem C1_session_history_cap (sid : String)
    (es : List (String × String × String)) (hN : es.length > 10) :
    (get_conversation_history (appendAll [] sid es) sid).1 =
      lastN 10 (es.map mkExchange)
  ∧ ((get_conversation_history (appendAll [] sid es) sid).1).length = 10
  ∧ (∀ (m : Histories) (q r t : String),
      (getHistVal (update_conversation_history m sid q r t) sid).length ≤ 10) := by
  have h0 : getHistVal ([] : Histories) sid = [] := rfl
  have h := appendAll_getHistVal sid es [] (by rw [h0]; simp)
  rw [h0, List.nil_append] at h
  refine ⟨?_, ?_, fun m q r t => update_length_le m sid q r t⟩
  · rw [getHistVal_get_fst]
    exact h
  · rw [getHistVal_get_fst, h, lastN_length, List.length_map]
    omega

/-- A concrete run of 11 appends, used to witness C1. -/
def esC1 : List (String × String × String) :=
  [("q1", "r1", "t1"), ("q2", "r2", "t2"), ("q3", "r3", "t3"),
   ("q4", "r4", "t4"), ("q5", "r5", "t5"), ("q6", "r6", "t6"),
   ("q7", "r7", "t7"), ("q8", "r8", "t8"), ("q9", "r9", "t9"),
   ("q10", "r10", "t10"), ("q11", "r11", "t11")]

/-- Witness for C1: the hypothesis N > 10 is satisfiable and the
conclusion holds at a concrete 11-append run. -/
theorem C1_session_history_cap_witness :
    esC1.length > 10
  ∧ ((get_conversation_history (appendAll [] "s1" esC1) "s1").1 =
        lastN 10 (esC1.map mkExchange)
    ∧ ((get_conversation_history (appendAll [] "s1" esC1) "s1").1).length = 10
    ∧ (∀ (m : Histories) (q r t : String),
        (getHistVal (update_conversation_history m "s1" q r t) "s1").length ≤ 10)) :=
  ⟨by decide, C1_session_history_cap "s1" esC1 (by decide)⟩

/-- Claim C2: for the response text "Hello world test" the word-level
streamer emits exactly 3 partial events with cumulative fields "Hello",
"Hello world", "Hello world test" (each content being the word plus a
trailing separator), followed by exactly one complete event whose
content is the original text verbatim. -/
theorem C2_word_streaming (sources : List String) (sid : String) :
    buildPartials sources sid (pySplit "Hello world test") "" =
      [StreamEvent.Partial "Hello " "Hello" sources sid,
       StreamEvent.Partial "world " "Hello world" sources sid,
       StreamEvent.Partial "test " "Hello world test" sources sid]
  ∧ emittedEvents ((stream_response
        ⟨true, fun _ => Except.ok [], fun _ => Except.ok "Hello world test",
         "T0", 7⟩ [] "q0" "s1").1) =
      [StreamEvent.Partial "Hello " "Hello" [] "s1",
       StreamEvent.Partial "world " "Hello world" [] "s1",
       StreamEvent.Partial "test " "Hello world test" [] "s1",
       StreamEvent.Complete "Hello world test" [] "s1" 7 "T0"] :=
  ⟨rfl, by decide⟩

/-- Claim C3: if the generation call fails, the streaming operation
yields exactly one error event (no partial or complete events) and the
blocking operation returns the fixed apology with empty sources; no raw
exception escapes (both operations are total functions here). -/
theorem C3_generation_failure_apology (e : String) (vi : Bool)
    (r : String → Except String (List Doc)) (m : Histories)
    (q sid ts : String) (el : Nat) :
    (stream_response ⟨vi, r, fun _ => Except.error e, ts, el⟩ m q sid).1 =
      [Step.emit (StreamEvent.Error apologyMsg [] sid ts)]
  ∧ (get_response ⟨vi, r, fun _ => Except.error e, ts, el⟩ m q sid).1 =
      ⟨apologyMsg, [], sid, ts, el⟩ :=
  ⟨rfl, rfl⟩

/-- Claim C4: with zero retrieved chunks both assembled prompts contain
the literal fallback phrase; with chunks they contain the blank-line
join of the chunk texts; the conversation block is the rendering of the
(at most 3) most recent exchanges, oldest first, each a two-line
User/Assistant block, and it appears in the prompt. -/
theorem C4_prompt_assembly (hist : List Exchange) (q c : String)
    (cs : List String) :
    containsStr (assembleStream (convCtx hist) (contextOf []) q)
      "No relevant context found."
  ∧ containsStr (assembleBlocking (convCtx hist) (contextOf []) q)
      "No relevant context found."
  ∧ contextOf (c :: cs) = String.intercalate "\n\n" (c :: cs)
  ∧ containsStr (assembleStream (convCtx hist) (contextOf (c :: cs)) q)
      (String.intercalate "\n\n" (c :: cs))
  ∧ convCtx hist = String.join ((lastN 3 hist).map renderExchange)
  ∧ (lastN 3 hist).length ≤ 3
  ∧ List.IsSuffix (lastN 3 hist) hist
  ∧ containsStr (assembleStream (convCtx hist) (contextOf cs) q)
      (convCtx hist) := by
  refine ⟨assemblePrompt_contains_ctx _ _ _ _,
    assemblePrompt_contains_ctx _ _ _ _, rfl,
    assemblePrompt_contains_ctx _ _ _ _, ?_,
    lastN_length_le 3 hist, lastN_suffix 3 hist,
    assemblePrompt_contains_conv _ _ _ _⟩
  cases hist with
  | nil => rfl
  | cons a t => rfl

/-- Claim C5: a failing (or unavailable) similarity-index retrieval does
not abort the turn: it yields empty context and sources, the streaming
run is identical to one with an empty retrieval result, no error event
is emitted, and the prompt is assembled with the no-context fallback. -/
theorem C5_retrieval_degrades (e : String) (m : Histories)
    (q sid resp ts : String) (el : Nat)
    (r : String → Except String (List Doc)) :
    get_context_documents ⟨true, fun _ => Except.error e,
        fun _ => Except.ok resp, ts, el⟩ q = ([], [])
  ∧ get_context_documents ⟨false, r, fun _ => Except.ok resp, ts, el⟩ q =
      ([], [])
  ∧ stream_response ⟨true, fun _ => Except.error e,
        fun _ => Except.ok resp, ts, el⟩ m q sid =
      stream_response ⟨true, fun _ => Except.ok [],
        fun _ => Except.ok resp, ts, el⟩ m q sid
  ∧ (emittedEvents ((stream_response ⟨true, fun _ => Except.error e,
        fun _ => Except.ok resp, ts, el⟩ m q sid).1)).filter isErrorEv = []
  ∧ contextOf [] = "No relevant context found."
  ∧ containsStr (assembleStream (convCtx (get_conversation_history m sid).1)
      (contextOf []) q) "No relevant context found." := by
  refine ⟨rfl, rfl, rfl, ?_, rfl, assemblePrompt_contains_ctx _ _ _ _⟩
  rw [stream_ok_fst, emittedEvents_shape, List.filter_append,
    buildPartials_filter_error]
  rfl

/-- Counterexample to claim C6 as stated: with the similarity-index
retrieval raising ("index unavailable") and generation succeeding with
"Hi there", the stream emits NO error event at all — it emits two
partial events and one complete event, because `get_context_documents`
catches the retrieval exception internally and degrades to empty
context. So an exception in the context-retrieval step does not produce
an error StreamEvent. -/
theorem C6_counterexample :
    (emittedEvents ((stream_response
        ⟨true, fun _ => Except.error "index unavailable",
         fun _ => Except.ok "Hi there", "T1", 3⟩ [] "q0" "s1").1)).filter
      isErrorEv = []
  ∧ emittedEvents ((stream_response
        ⟨true, fun _ => Except.error "index unavailable",
         fun _ => Except.ok "Hi there", "T1", 3⟩ [] "q0" "s1").1) =
      [StreamEvent.Partial "Hi " "Hi" [] "s1",
       StreamEvent.Partial "there " "Hi there" [] "s1",
       StreamEvent.Complete "Hi there" [] "s1" 3 "T1"] :=
  ⟨by decide, by decide⟩

/-- Claim C6 (amended): an exception during generation (or any step of
the streaming body after retrieval) makes the stream emit exactly one
error StreamEvent with the fixed user-safe message and empty sources and
then terminate; an exception in the context-retrieval step is caught
inside retrieval and degrades to empty context, so the stream proceeds
normally, emitting no error event and exactly one complete event. -/
theorem C6_stream_error_policy (e1 e2 : String) (vi : Bool)
    (r : String → Except String (List Doc)) (m : Histories)
    (q sid resp ts : String) (el : Nat) :
    (stream_response ⟨vi, r, fun _ => Except.error e1, ts, el⟩ m q sid).1 =
      [Step.emit (StreamEvent.Error apologyMsg [] sid ts)]
  ∧ (emittedEvents ((stream_response ⟨true, fun _ => Except.error e2,
        fun _ => Except.ok resp, ts, el⟩ m q sid).1)).filter isErrorEv = []
  ∧ (emittedEvents ((stream_response ⟨true, fun _ => Except.error e2,
        fun _ => Except.ok resp, ts, el⟩ m q sid).1)).filter isCompleteEv =
      [StreamEvent.Complete resp [] sid el ts] := by
  refine ⟨rfl, ?_, ?_⟩
  · rw [stream_ok_fst, emittedEvents_shape, List.filter_append,
      buildPartials_filter_error]
    rfl
  · rw [stream_ok_fst, emittedEvents_shape, List.filter_append,
      buildPartials_filter_complete]
    rfl

/-- Claim C7: in every successful streaming call the trace is the
partial emissions, then the history update, then the terminal complete
emission — so the history is updated with the final full answer after
the last partial event and before the complete event, and the appended
exchange records the final answer text. -/
theorem C7_history_update_order (vi : Bool)
    (r : String → Except String (List Doc)) (m : Histories)
    (q sid resp ts : String) (el : Nat) :
    (stream_response ⟨vi, r, fun _ => Except.ok resp, ts, el⟩ m q sid).1 =
      (buildPartials (get_context_documents
          ⟨vi, r, fun _ => Except.ok resp, ts, el⟩ q).2 sid
          (pySplit resp) "").map Step.emit ++
        [Step.updateHistory sid q resp,
         Step.emit (StreamEvent.Complete resp
           (get_context_documents ⟨vi, r, fun _ => Except.ok resp, ts, el⟩ q).2
           sid el ts)]
  ∧ (∀ s ∈ (buildPartials (get_context_documents
        ⟨vi, r, fun _ => Except.ok resp, ts, el⟩ q).2 sid
        (pySplit resp) "").map Step.emit,
      ∃ ev, s = Step.emit ev ∧ isPartialEv ev = true)
  ∧ (getHistVal (stream_response ⟨vi, r, fun _ => Except.ok resp, ts, el⟩
        m q sid).2 sid).getLast? = some ⟨q, resp, ts⟩ := by
  refine ⟨stream_ok_fst vi r m q sid resp ts el, ?_, ?_⟩
  · intro s hs
    rw [List.mem_map] at hs
    obtain ⟨ev, hev, rfl⟩ := hs
    exact ⟨ev, rfl, buildPartials_all_partial _ _ _ _ ev hev⟩
  · rw [stream_ok_snd]
    exact update_getLast _ sid q resp ts

-- ── Session deletion (the `/sessions/{session_id}` DELETE route) ─────

/-- Removal of a key from the `user_sessions` key set (`del d[k]`). -/
def eraseU : List String → String → List String
  | [], _ => []
  | k :: t, s => if k = s then eraseU t s else k :: eraseU t s

/-- The process-wide state touched by `delete_session`: the
`user_sessions` dict (only its key set is ever observable — the code
never writes values into it) and the RAG system's
`conversation_histories` dict. -/
structure AppState where
  user_sessions : List String
  conv : Histories

/-- The `delete_session` route handler: conditionally (`if ... in ...`)
deletes the id from both dicts and returns the confirmation message.
Total — it never raises, whether or not the id exists. -/
def delete_session (st : AppState) (sid : String) : AppState × String :=
  let us := if sid ∈ st.user_sessions then eraseU st.user_sessions sid
            else st.user_sessions
  let ch := if (lookupH st.conv sid).isSome then eraseH st.conv sid
            else st.conv
  (⟨us, ch⟩, "Session " ++ sid ++ " cleared.")

theorem not_mem_eraseU (l : List String) (s : String) : s ∉ eraseU l s := by
  induction l with
  | nil => simp [eraseU]
  | cons k t ih =>
      by_cases hk : k = s
      · simpa [eraseU, hk] using ih
      · intro hmem
        rw [eraseU, if_neg hk] at hmem
        rcases List.mem_cons.mp hmem with h1 | h2
        · exact hk h1.symm
        · exact ih h2

theorem delete_us_not_mem (st : AppState) (sid : String) :
    sid ∉ (delete_session st sid).1.user_sessions := by
  simp only [delete_session]
  by_cases h : sid ∈ st.user_sessions
  · simpa [h] using not_mem_eraseU st.user_sessions sid
  · simp [h]

theorem delete_conv_lookup (st : AppState) (sid : String) :
    lookupH (delete_session st sid).1.conv sid = none := by
  simp only [delete_session]
  by_cases h : (lookupH st.conv sid).isSome
  · simpa [h] using lookupH_eraseH_same st.conv sid
  · simp only [h, if_neg]
    simpa using Option.not_isSome_iff_eq_none.mp h

theorem delete_session_absent (st : AppState) (sid : String)
    (h1 : sid ∉ st.user_sessions) (h2 : lookupH st.conv sid = none) :
    delete_session st sid = (st, "Session " ++ sid ++ " cleared.") := by
  simp [delete_session, h1, h2]

/-- Claim C8: delete is idempotent and never raises. Delete followed by
a history read yields the empty sequence, and a second delete of the
same id (even one never created) produces exactly the same observable
result — same returned message and same resulting state. -/
theorem C8_delete_idempotent (st : AppState) (sid : String) :
    (get_conversation_history (delete_session st sid).1.conv sid).1 = []
  ∧ delete_session (delete_session st sid).1 sid = delete_session st sid := by
  constructor
  · rw [getHistVal_get_fst]
    unfold getHistVal
    rw [delete_conv_lookup]
    rfl
  · rw [delete_session_absent (delete_session st sid).1 sid
      (delete_us_not_mem st sid) (delete_conv_lookup st sid)]
    exact Prod.ext rfl rfl

-- ── Document ingestion (the `/upload` route) ─────────────────────────

/-- The request body of the `/upload` endpoint. -/
structure DocumentUploadRequest where
  file_path : String
  collection_name : String
deriving DecidableEq, Repr

/-- The parameters with which `add_documents_async` ends up running:
the document path it loads, the collection label each chunk is tagged
with, and the fixed splitter / batching configuration
(`chunk_size=800`, `chunk_overlap=100`, hierarchical separators,
`batch_size=50`). -/
structure IngestCall where
  file_path : String
  collection_name : String
  chunk_size : Nat
  chunk_overlap : Nat
  separators : List String
  batch_size : Nat
deriving DecidableEq, Repr

/-- The path hardcoded in the `upload_document` handler. -/
def uploadHardcodedPath : String :=
  "C:/Users/Asus/OneDrive/Desktop/TMU-interns-ai-voice-agent-gpt3.5-version/data/sales_ai_knowledgebase.pdf"

/-- The `upload_document` route handler as the ingestion call it makes:
it passes `request.collection_name` through, but ignores
`request.file_path` and passes the hardcoded path instead. -/
def upload_document (req : DocumentUploadRequest) : IngestCall :=
  ⟨uploadHardcodedPath, req.collection_name, 800, 100,
   ["\n\n", "\n", ". ", " ", ""], 50⟩

/-- Claim C9, evaluated at a failing input: the ingestion request
carries the caller-supplied path "/data/mydoc.pdf", but the document
actually ingested is the hardcoded developer-machine path — only the
collection label and the fixed chunking/batching configuration follow
the claim. -/
theorem C9_upload_ignores_request_path :
    (upload_document ⟨"/data/mydoc.pdf", "docs"⟩).file_path =
      uploadHardcodedPath
  ∧ uploadHardcodedPath ≠ "/data/mydoc.pdf"
  ∧ (upload_document ⟨"/data/mydoc.pdf", "docs"⟩).collection_name = "docs"
  ∧ (upload_document ⟨"/data/mydoc.pdf", "docs"⟩).chunk_size = 800
  ∧ (upload_document ⟨"/data/mydoc.pdf", "docs"⟩).chunk_overlap = 100
  ∧ (upload_document ⟨"/data/mydoc.pdf", "docs"⟩).separators =
      ["\n\n", "\n", ". ", " ", ""]
  ∧ (upload_document ⟨"/data/mydoc.pdf", "docs"⟩).batch_size = 50 :=
  ⟨rfl, by decide, rfl, rfl, rfl, rfl, rfl⟩

/-- Claim C10: if the turn fails at the generation call, the session
histories are observably unchanged — for every session id the exchange
sequence read afterwards equals the one before, in both the streaming
and the blocking operation (no exchange is appended for the failed
turn). -/
theorem C10_failed_turn_atomic (e : String) (vi : Bool)
    (r : String → Except String (List Doc)) (m : Histories)
    (q sid s ts : String) (el : Nat) :
    getHistVal ((stream_response ⟨vi, r, fun _ => Except.error e, ts, el⟩
        m q sid).2) s = getHistVal m s
  ∧ getHistVal ((get_response ⟨vi, r, fun _ => Except.error e, ts, el⟩
        m q sid).2) s = getHistVal m s :=
  ⟨getHistVal_get_snd m sid s, getHistVal_get_snd m sid s⟩
